import Mathlib

/-!
Verification of the resilient artifact-retrieval subsystem of the
git-pkgs/registries library: the retrying streaming Fetcher
(src/fetch/fetcher.go), the per-host circuit-breaker wrapper
(fetch/circuit_breaker source), and the URL Resolver
(src/fetch/resolver.go).

The Go code is shallowly embedded: Go errors become the inductive
GoError with explicit wrapping mirroring fmt.Errorf with a %w verb,
the HTTP exchange of each attempt becomes an oracle value of type
HttpAttempt, and the retry loop becomes a structurally recursive
function over the remaining retry budget.  Machine integers that
matter (sizes) are modelled as Int; Go strings are modelled as Lean
strings (character-based; the sources at issue only handle ASCII).
-/

/-! ## Error model

Mirrors the sentinel errors of package fetch:
ErrNotFound, ErrRateLimited, ErrUpstreamDown (fetcher.go),
ErrUnsupportedEcosystem, ErrNoDownloadURL (resolver.go),
context cancellation (ctx.Err()), and wrapping via fmt.Errorf
with a %w verb which keeps the inner error visible to errors.Is. -/

inductive GoError where
  | notFound
  | rateLimited
  | upstreamDown
  | ctxCancelled
  | netFailure
  | unexpectedStatus (status : Nat)
  | unsupportedEcosystem
  | noDownloadURL
  | invalidMavenName
  | wrapped (msg : String) (inner : GoError)
deriving DecidableEq, Repr

/-- Model of Go errors.Is: an error matches a target if it equals it
or if some error in its wrap chain equals it. -/
def errorsIs (e target : GoError) : Bool :=
  match e with
  | GoError.wrapped m inner =>
      decide (GoError.wrapped m inner = target) || errorsIs inner target
  | e' => decide (e' = target)

/-! ## Fetcher (src/fetch/fetcher.go) -/

/-- Result of a successful fetch, per the Artifact struct of fetcher.go.
The live body stream is outside a pure model; Size is -1 when the
Content-Length header is absent (chunked transfer). -/
structure Artifact where
  size : Int
  contentType : String
  etag : String
deriving DecidableEq, Repr

/-- One network exchange as seen by doFetch: either an HTTP response
(status, optional Content-Length, Content-Type, ETag) or a failure of
client.Do, flagged by whether it stems from context cancellation. -/
inductive HttpAttempt where
  | response (status : Nat) (contentLength : Option Int) (contentType : String) (etag : String)
  | netError (cancelled : Bool)
deriving DecidableEq, Repr

/-- Model of Fetcher.doFetch: classify one HTTP exchange.
A client.Do failure is wrapped (fmt.Errorf "fetching artifact: %w");
status 200 yields the Artifact (size -1 when Content-Length absent),
404 yields ErrNotFound, 429 ErrRateLimited, any 5xx ErrUpstreamDown,
and any other status a non-sentinel error. -/
def doFetch : HttpAttempt → Except GoError Artifact
  | HttpAttempt.netError true =>
      Except.error (GoError.wrapped "fetching artifact" GoError.ctxCancelled)
  | HttpAttempt.netError false =>
      Except.error (GoError.wrapped "fetching artifact" GoError.netFailure)
  | HttpAttempt.response status contentLength contentType etag =>
      if status = 200 then
        Except.ok { size := contentLength.getD (-1), contentType := contentType, etag := etag }
      else if status = 404 then Except.error GoError.notFound
      else if status = 429 then Except.error GoError.rateLimited
      else if 500 ≤ status then Except.error GoError.upstreamDown
      else Except.error (GoError.unexpectedStatus status)

/-- Transient classification used by the retry loop of Fetcher.Fetch:
errors.Is(err, ErrRateLimited) or errors.Is(err, ErrUpstreamDown). -/
def isTransient (e : GoError) : Bool :=
  errorsIs e GoError.rateLimited || errorsIs e GoError.upstreamDown

instance {ε α : Type} [DecidableEq ε] [DecidableEq α] : DecidableEq (Except ε α) := fun x y =>
  match x, y with
  | Except.ok a, Except.ok b =>
      if h : a = b then isTrue (by rw [h]) else isFalse (by simp [h])
  | Except.error a, Except.error b =>
      if h : a = b then isTrue (by rw [h]) else isFalse (by simp [h])
  | Except.ok _, Except.error _ => isFalse (by simp)
  | Except.error _, Except.ok _ => isFalse (by simp)

/-- Trace of one Fetcher.Fetch call: its outcome, the number of network
requests issued (doFetch calls), and the retry indices at which a full
backoff wait was performed. -/
structure FetchRun where
  result : Except GoError Artifact
  requests : Nat
  waits : List Nat
deriving DecidableEq, Repr

/-- Model of the retry loop of Fetcher.Fetch.  The loop variable is
attempt (starting at 0); remaining is maxRetries minus attempt, so the
loop body runs while attempt less-or-equal maxRetries.  Before each
retry (attempt positive) the loop waits, aborting with ctx.Err() if the
caller's cancellation fires during the wait (cancelAtWait).  The
outcome of network attempt i is outcome i.  Not-found errors and
non-transient errors return immediately; transient errors
(rate-limited / upstream-down) retry until the budget is exhausted,
after which the last error is returned verbatim. -/
def fetchAux (outcome : Nat → Except GoError Artifact) (cancelAtWait : Nat → Bool) :
    Nat → Nat → FetchRun
  | attempt, 0 =>
    if 0 < attempt && cancelAtWait attempt then
      { result := Except.error GoError.ctxCancelled, requests := 0, waits := [] }
    else
      let waited : List Nat := if 0 < attempt then [attempt] else []
      match outcome attempt with
      | Except.ok a => { result := Except.ok a, requests := 1, waits := waited }
      | Except.error e => { result := Except.error e, requests := 1, waits := waited }
  | attempt, r + 1 =>
    if 0 < attempt && cancelAtWait attempt then
      { result := Except.error GoError.ctxCancelled, requests := 0, waits := [] }
    else
      let waited : List Nat := if 0 < attempt then [attempt] else []
      match outcome attempt with
      | Except.ok a => { result := Except.ok a, requests := 1, waits := waited }
      | Except.error e =>
        if errorsIs e GoError.notFound then
          { result := Except.error e, requests := 1, waits := waited }
        else if isTransient e then
          let rest := fetchAux outcome cancelAtWait (attempt + 1) r
          { result := rest.result, requests := rest.requests + 1, waits := waited ++ rest.waits }
        else
          { result := Except.error e, requests := 1, waits := waited }

/-- Model of Fetcher.Fetch over a sequence of network exchanges: attempt
i observes responses i; cancelAtWait k tells whether the caller's
context fires during the backoff wait before retry k. -/
def Fetcher.Fetch (responses : Nat → HttpAttempt) (cancelAtWait : Nat → Bool)
    (maxRetries : Nat) : FetchRun :=
  fetchAux (fun i => doFetch (responses i)) cancelAtWait 0 maxRetries

/-- Model of the backoff delay computed before retry k (k at least 1) in
Fetcher.Fetch: baseDelay * 2^(k-1), plus that quantity times u * 0.1
where u is the jitter draw of rand.Float64() in [0,1). -/
def retryDelay (baseDelay : ℚ) (k : Nat) (u : ℚ) : ℚ :=
  baseDelay * 2 ^ (k - 1) + baseDelay * 2 ^ (k - 1) * (u * (1 / 10))

/-- Expected backoff delay before retry k: the jitter draw is uniform on
[0,1) with mean 1/2, so the expectation is retryDelay at u = 1/2. -/
def expectedRetryDelay (baseDelay : ℚ) (k : Nat) : ℚ :=
  retryDelay baseDelay k (1 / 2)

/-- Decidable transient-response test: a 429 or 5xx HTTP response. -/
def transientResponse : HttpAttempt → Bool
  | HttpAttempt.response status _ _ _ => status == 429 || 500 ≤ status
  | HttpAttempt.netError _ => false

example : doFetch (HttpAttempt.response 503 none "" "") = Except.error GoError.upstreamDown := by decide
example : (Fetcher.Fetch (fun _ => HttpAttempt.response 503 none "" "") (fun _ => false) 2).requests = 3 := by decide
example : (Fetcher.Fetch (fun _ => HttpAttempt.response 404 none "" "") (fun _ => false) 3).requests = 1 := by decide

/-! ## Resolver (src/fetch/resolver.go) -/

/-- Association-list lookup with string keys, modelling a Go map
read (the maps at issue are built without duplicate keys). -/
def lookupStr {α : Type} : List (String × α) → String → Option α
  | [], _ => none
  | p :: rest, k => if p.fst = k then some p.snd else lookupStr rest k

/-- Model of strings.SplitN(s, ":", 2): split at the first colon only,
yielding a two-element list when the string contains a colon and a
one-element list otherwise. -/
def splitN2Colon (s : String) : List String :=
  match s.splitOn ":" with
  | [] => []
  | [x] => [x]
  | x :: rest => [x, String.intercalate ":" rest]

/-- Suffix of a string after its last '/' character, modelling
strings.LastIndex(s, "/") followed by s[idx+1:] (the whole string when
no '/' occurs).  Used by both filenameFromURL and lastPathComponent. -/
def afterLastSlash (s : String) : String :=
  String.mk (List.reverse (s.data.reverse.takeWhile (fun c => c ≠ '/')))

/-- Model of filenameFromURL (resolver.go): the URL's final path segment. -/
def filenameFromURL (url : String) : String :=
  afterLastSlash url

/-- Model of lastPathComponent (resolver.go). -/
def lastPathComponent (path : String) : String :=
  afterLastSlash path

/-- Encoding of one character per the goproxy convention used by
encodeGoModule: an uppercase ASCII letter becomes an exclamation-mark
escape marker followed by the letter shifted into lowercase (+32);
every other character is kept. -/
def goEncodeChar (c : Char) : List Char :=
  if 'A' ≤ c ∧ c ≤ 'Z' then ['!', Char.ofNat (c.toNat + 32)] else [c]

/-- Model of encodeGoModule (resolver.go): iterate the characters of
the module path, writing the escape pair for uppercase ASCII letters
and the character itself otherwise, into a string builder. -/
def encodeGoModule (path : String) : String :=
  path.data.foldl
    (fun b r =>
      if 'A' ≤ r ∧ r ≤ 'Z' then (b.push '!').push (Char.ofNat (r.toNat + 32))
      else b.push r)
    ""

/-- Specification-level recursion computing the concatenation of the
per-character encodings; used to characterise encodeGoModule. -/
def encodeChars : List Char → List Char
  | [] => []
  | c :: rest => goEncodeChar c ++ encodeChars rest

/-- Values of the open-ended metadata bag of a version record
(map[string]any in Go): a string, or some non-string value. -/
inductive MetaValue where
  | str (s : String)
  | nonString
deriving DecidableEq, Repr

/-- Model of registries.Version as used by the resolver: version
number, integrity string, and the metadata bag (none models a nil map). -/
structure Version where
  number : String
  integrity : String
  metadata : Option (List (String × MetaValue))
deriving DecidableEq, Repr

/-- Model of the Go pattern m[key].(string) combined with a
non-emptiness check: yields the value only when the key is present,
holds a string, and that string is non-empty. -/
def metaStringField (m : List (String × MetaValue)) (key : String) : Option String :=
  match lookupStr m key with
  | some (MetaValue.str s) => if s = "" then none else some s
  | _ => none

/-- Download URL extracted from a version's metadata by
resolveFromMetadata: the download_url field if it is a non-empty
string, else the tarball field if it is a non-empty string, else none
(a nil metadata map yields none). -/
def versionDownloadURL (v : Version) : Option String :=
  match v.metadata with
  | none => none
  | some m =>
    match metaStringField m "download_url" with
    | some url => some url
    | none => metaStringField m "tarball"

/-- Result of resolution, per the ArtifactInfo struct of resolver.go. -/
structure ArtifactInfo where
  url : String
  filename : String
  integrity : String
deriving DecidableEq, Repr

/-- Loop body of resolveFromMetadata over the fetched version list: the
first record whose number matches decides the outcome (its metadata URL
if any, else ErrNoDownloadURL); if no record matches, ErrNotFound. -/
def findVersionArtifact (version : String) : List Version → Except GoError ArtifactInfo
  | [] => Except.error GoError.notFound
  | v :: rest =>
    if v.number ≠ version then findVersionArtifact version rest
    else
      match versionDownloadURL v with
      | some url =>
          Except.ok { url := url, filename := filenameFromURL url, integrity := v.integrity }
      | none => Except.error GoError.noDownloadURL

/-- Model of the per-ecosystem metadata collaborator the Resolver
depends on (the Registry interface of resolver.go): its ecosystem tag,
its FetchVersions outcome per package name, and its URL-builder's
Download result per (name, version). -/
structure Registry where
  ecosystem : String
  fetchVersions : String → Except GoError (List Version)
  downloadURL : String → String → String

/-- Model of Resolver.resolveFromMetadata: fetch the version list
(wrapping a failure as fmt.Errorf "fetching versions: %w") and scan it
for the requested version. -/
def resolveFromMetadata (reg : Registry) (name version : String) : Except GoError ArtifactInfo :=
  match reg.fetchVersions name with
  | Except.error e => Except.error (GoError.wrapped "fetching versions" e)
  | Except.ok versions => findVersionArtifact version versions

/-- Model of Resolver.resolveWithoutRegistry: the static table of
hand-coded URL templates for ecosystems with deterministic download
paths.  String formatting mirrors the fmt.Sprintf calls verbatim. -/
def resolveWithoutRegistry (ecosystem name version : String) : Except GoError ArtifactInfo :=
  if ecosystem = "npm" then
    Except.ok
      { url := "https://registry.npmjs.org/" ++ name ++ "/-/" ++ lastPathComponent name ++ "-" ++ version ++ ".tgz"
        filename := lastPathComponent name ++ "-" ++ version ++ ".tgz"
        integrity := "" }
  else if ecosystem = "cargo" then
    Except.ok
      { url := "https://static.crates.io/crates/" ++ name ++ "/" ++ name ++ "-" ++ version ++ ".crate"
        filename := name ++ "-" ++ version ++ ".crate"
        integrity := "" }
  else if ecosystem = "gem" then
    Except.ok
      { url := "https://rubygems.org/downloads/" ++ name ++ "-" ++ version ++ ".gem"
        filename := name ++ "-" ++ version ++ ".gem"
        integrity := "" }
  else if ecosystem = "golang" then
    Except.ok
      { url := "https://proxy.golang.org/" ++ encodeGoModule name ++ "/@v/" ++ version ++ ".zip"
        filename := lastPathComponent name ++ "@" ++ version ++ ".zip"
        integrity := "" }
  else if ecosystem = "hex" then
    Except.ok
      { url := "https://repo.hex.pm/tarballs/" ++ name ++ "-" ++ version ++ ".tar"
        filename := name ++ "-" ++ version ++ ".tar"
        integrity := "" }
  else if ecosystem = "pub" then
    Except.ok
      { url := "https://pub.dev/packages/" ++ name ++ "/versions/" ++ version ++ ".tar.gz"
        filename := name ++ "-" ++ version ++ ".tar.gz"
        integrity := "" }
  else if ecosystem = "maven" then
    match splitN2Colon name with
    | [group0, artifact] =>
      Except.ok
        { url := "https://repo1.maven.org/maven2/" ++ String.intercalate "/" (group0.splitOn ".")
            ++ "/" ++ artifact ++ "/" ++ version ++ "/" ++ artifact ++ "-" ++ version ++ ".jar"
          filename := artifact ++ "-" ++ version ++ ".jar"
          integrity := "" }
    | _ => Except.error GoError.invalidMavenName
  else if ecosystem = "nuget" then
    Except.ok
      { url := "https://api.nuget.org/v3-flatcontainer/" ++ name.toLower ++ "/" ++ version
          ++ "/" ++ name.toLower ++ "." ++ version ++ ".nupkg"
        filename := name.toLower ++ "." ++ version ++ ".nupkg"
        integrity := "" }
  else
    Except.error (GoError.wrapped ecosystem GoError.unsupportedEcosystem)

/-- Model of the Resolver: its registered collaborators keyed by
ecosystem identifier. -/
structure Resolver where
  registries : List (String × Registry)

/-- Model of Resolver.Resolve: use the registered collaborator's URL
builder when it yields a URL; fall back to its version-list metadata
when the builder yields nothing; fall back to the static template table
when no collaborator is registered for the ecosystem. -/
def Resolver.Resolve (r : Resolver) (ecosystem name version : String) :
    Except GoError ArtifactInfo :=
  match lookupStr r.registries ecosystem with
  | none => resolveWithoutRegistry ecosystem name version
  | some reg =>
    let url := reg.downloadURL name version
    if url ≠ "" then
      Except.ok { url := url, filename := filenameFromURL url, integrity := "" }
    else resolveFromMetadata reg name version

/-! ## Circuit-breaker wrapper (fetch circuit-breaker source)

The wrapper code keeps a map from registry key (upstream host) to a
circuit.Breaker of the rubyist/circuitbreaker library, configured with
ThresholdTripFunc(5) and an exponential cool-down.  The library itself
is an external dependency whose source is not part of this repository,
so its breaker is modelled from the spec. -/

/-- Modelled from the spec: the per-host breaker state of the external
circuitbreaker library (the library source is not in this repository).
Per the spec's Breaker-state data model, a closed breaker counts
consecutive failures, resets the count on success, and trips to open
once the consecutive-failure threshold (5) is reached; while open (its
cool-down not yet elapsed) it is not ready and calls are rejected.
This model captures an instant before any cool-down has elapsed, which
is the regime the claims quantify over; the probe/half-open phase after
the cool-down is timing behaviour outside this pure model. -/
structure Breaker where
  consecutiveFailures : Nat
  tripped : Bool
deriving DecidableEq, Repr

/-- Consecutive-failure threshold: circuit.ThresholdTripFunc(5). -/
def breakerThreshold : Nat := 5

/-- Modelled from the spec: a freshly created breaker is closed with a
zero failure count. -/
def Breaker.new : Breaker := { consecutiveFailures := 0, tripped := false }

/-- Modelled from the spec: a success while closed (or a successful
probe) resets the failure count and closes the breaker. -/
def Breaker.recordSuccess (_ : Breaker) : Breaker :=
  { consecutiveFailures := 0, tripped := false }

/-- Modelled from the spec: a failure increments the consecutive
failure count and trips the breaker once the threshold is reached. -/
def Breaker.recordFailure (b : Breaker) : Breaker :=
  { consecutiveFailures := b.consecutiveFailures + 1
    tripped := b.tripped || decide (breakerThreshold ≤ b.consecutiveFailures + 1) }

/-- Model of the CircuitBreakerFetcher struct: its registry-key to
breaker map (the wrapped Fetcher is supplied per call as the outcome of
the underlying fetch). -/
structure CircuitBreakerFetcher where
  breakers : List (String × Breaker)
deriving DecidableEq, Repr

/-- Truncation used by extractRegistry's fallback: the raw URL cut to
its first 50 characters when longer (Go slices bytes; the model uses
characters, which agrees on the ASCII URLs at issue). -/
def truncate50 (s : String) : String :=
  if 50 < s.data.length then String.mk (s.data.take 50) else s

/-- Model of extractRegistry: the host component of the parsed URL, or,
when parsing fails or the host is empty, the raw URL truncated to 50
characters.  URL parsing is performed by net/url (outside this
repository), so it enters the model as the oracle parseHost, returning
none when url.Parse errors and the Host field otherwise. -/
def extractRegistry (parseHost : String → Option String) (rawURL : String) : String :=
  match parseHost rawURL with
  | some host => if host = "" then truncate50 rawURL else host
  | none => truncate50 rawURL

/-- Model of CircuitBreakerFetcher.getBreaker: return the breaker for
the registry key, creating (and inserting) a fresh one on first use. -/
def CircuitBreakerFetcher.getBreaker (cbf : CircuitBreakerFetcher) (registry : String) :
    Breaker × CircuitBreakerFetcher :=
  match lookupStr cbf.breakers registry with
  | some b => (b, cbf)
  | none => (Breaker.new, ⟨(registry, Breaker.new) :: cbf.breakers⟩)

/-- Update of the breaker stored for a key, modelling the in-place
mutation of the breaker the map points to. -/
def CircuitBreakerFetcher.setBreaker (cbf : CircuitBreakerFetcher) (registry : String)
    (b : Breaker) : CircuitBreakerFetcher :=
  ⟨cbf.breakers.map (fun p => if p.fst = registry then (registry, b) else p)⟩

/-- Model of CircuitBreakerFetcher.Fetch: select the breaker by the
URL's registry key; while the breaker is open reject immediately with
fmt.Errorf("circuit breaker open for registry %s: %w", registry,
ErrUpstreamDown) without invoking the underlying fetcher; otherwise run
the underlying fetch (its outcome is the parameter inner) under
breaker.Call, which records a success or failure on the breaker and
passes the fetch outcome through. -/
def CircuitBreakerFetcher.Fetch (parseHost : String → Option String)
    (cbf : CircuitBreakerFetcher) (fetchURL : String)
    (inner : Except GoError Artifact) :
    Except GoError Artifact × CircuitBreakerFetcher :=
  let registry := extractRegistry parseHost fetchURL
  let gb := cbf.getBreaker registry
  if gb.fst.tripped then
    (Except.error (GoError.wrapped ("circuit breaker open for registry " ++ registry)
        GoError.upstreamDown),
     gb.snd)
  else
    match inner with
    | Except.ok a => (Except.ok a, gb.snd.setBreaker registry gb.fst.recordSuccess)
    | Except.error e => (Except.error e, gb.snd.setBreaker registry gb.fst.recordFailure)

/-- Model of CircuitBreakerFetcher.Head: the same breaker logic around
the underlying Head outcome (a size and content type on success). -/
def CircuitBreakerFetcher.Head (parseHost : String → Option String)
    (cbf : CircuitBreakerFetcher) (headURL : String)
    (inner : Except GoError (Int × String)) :
    Except GoError (Int × String) × CircuitBreakerFetcher :=
  let registry := extractRegistry parseHost headURL
  let gb := cbf.getBreaker registry
  if gb.fst.tripped then
    (Except.error (GoError.wrapped ("circuit breaker open for registry " ++ registry)
        GoError.upstreamDown),
     gb.snd)
  else
    match inner with
    | Except.ok v => (Except.ok v, gb.snd.setBreaker registry gb.fst.recordSuccess)
    | Except.error e => (Except.error e, gb.snd.setBreaker registry gb.fst.recordFailure)

/-- Model of CircuitBreakerFetcher.GetBreakerState: the read-only
snapshot labelling each known registry key open or closed according to
breaker.Tripped(). -/
def CircuitBreakerFetcher.GetBreakerState (cbf : CircuitBreakerFetcher) :
    List (String × String) :=
  cbf.breakers.map (fun p => (p.fst, if p.snd.tripped then "open" else "closed"))

/-- One failing CircuitBreakerFetcher.Fetch call against a URL (the
underlying fetch fails with ErrUpstreamDown), keeping the new state. -/
def failStep (parseHost : String → Option String) (url : String)
    (cbf : CircuitBreakerFetcher) : CircuitBreakerFetcher :=
  (CircuitBreakerFetcher.Fetch parseHost cbf url (Except.error GoError.upstreamDown)).snd

/-- State after n consecutive failing fetches against the same URL. -/
def iterFail (parseHost : String → Option String) (url : String)
    (cbf : CircuitBreakerFetcher) : Nat → CircuitBreakerFetcher
  | 0 => cbf
  | n + 1 => failStep parseHost url (iterFail parseHost url cbf n)

/-! ## Concrete inputs used by witnesses and counterexamples -/

/-- Cancellation signal that never fires. -/
def cancelNever : Nat → Bool := fun _ => false

/-- Cancellation signal firing during the backoff wait before retry 1. -/
def cancelAt1 : Nat → Bool := fun k => k == 1

/-- Two 503 responses followed by successes. -/
def responsesA : Nat → HttpAttempt := fun i =>
  if i < 2 then HttpAttempt.response 503 none "" ""
  else HttpAttempt.response 200 (some 7) "application/gzip" "etag-a"

/-- The artifact produced by the success in responsesA. -/
def artifactA : Artifact := { size := 7, contentType := "application/gzip", etag := "etag-a" }

/-- Upstream that always answers 404. -/
def responses404 : Nat → HttpAttempt := fun _ => HttpAttempt.response 404 none "" ""

/-- Upstream that always answers 503. -/
def responsesAllDown : Nat → HttpAttempt := fun _ => HttpAttempt.response 503 none "" ""

/-- A 429 response, then a network failure caused by cancellation. -/
def responsesNetCancel : Nat → HttpAttempt := fun i =>
  if i = 0 then HttpAttempt.response 429 none "" "" else HttpAttempt.netError true

/-- Host oracle for the npm registry URL used in breaker witnesses. -/
def parseHostNpm : String → Option String := fun s =>
  if s = "https://registry.npmjs.org/a.tgz" then some "registry.npmjs.org" else none

/-- Breaker map whose npm-registry breaker has tripped. -/
def cbfOpen : CircuitBreakerFetcher :=
  ⟨[("registry.npmjs.org", { consecutiveFailures := 5, tripped := true })]⟩

/-- Empty breaker map. -/
def cbfEmpty : CircuitBreakerFetcher := ⟨[]⟩

/-- The circuit-open error produced for the npm registry host. -/
def circuitOpenErrNpm : GoError :=
  GoError.wrapped "circuit breaker open for registry registry.npmjs.org" GoError.upstreamDown

/-- Collaborator whose URL builder yields nothing and whose version
list carries one version with a download URL and integrity, one with
an empty metadata bag, and one older version. -/
def regMetaA : Registry :=
  { ecosystem := "pypi"
    fetchVersions := fun _ => Except.ok
      [ { number := "0.9", integrity := "", metadata := none }
      , { number := "1.0", integrity := "sha256-abc"
          metadata := some [("download_url", MetaValue.str "https://files.example/pkg-1.0.tar.gz")] }
      , { number := "1.1", integrity := "", metadata := some [] } ]
    downloadURL := fun _ _ => "" }

/-- Resolver with the pypi collaborator regMetaA registered. -/
def resolverMeta : Resolver := ⟨[("pypi", regMetaA)]⟩

/-- Second collaborator used to show the not-found error carries no
coordinates: a different ecosystem with a different version list. -/
def regMetaB : Registry :=
  { ecosystem := "hex"
    fetchVersions := fun _ => Except.ok [{ number := "9.9", integrity := "", metadata := none }]
    downloadURL := fun _ _ => "" }

/-- Resolver with the hex collaborator regMetaB registered. -/
def resolverMetaB : Resolver := ⟨[("hex", regMetaB)]⟩

/-- Collaborator whose URL builder returns a URL ending in a slash. -/
def regSlash : Registry :=
  { ecosystem := "pypi"
    fetchVersions := fun _ => Except.ok []
    downloadURL := fun _ _ => "https://example.com/" }

/-- Resolver with the trailing-slash collaborator registered. -/
def resolverSlash : Resolver := ⟨[("pypi", regSlash)]⟩

/-- Host oracle on which every URL fails to parse. -/
def parseHostNone : String → Option String := fun _ => none

/-- Unparseable URL of 52 characters, starting with 50 letters a. -/
def uLong1 : String := String.mk (List.replicate 50 'a' ++ ['b', 'c'])

/-- Unparseable URL of 55 characters, starting with 50 letters a. -/
def uLong2 : String := String.mk (List.replicate 50 'a' ++ ['x', 'y', 'z', 'x', 'y'])

/-- The 26 uppercase ASCII letters. -/
def asciiUppercase : List Char :=
  ['A', 'B', 'C', 'D', 'E', 'F', 'G', 'H', 'I', 'J', 'K', 'L', 'M',
   'N', 'O', 'P', 'Q', 'R', 'S', 'T', 'U', 'V', 'W', 'X', 'Y', 'Z']

/-! ## Helper lemmas for the fetch retry loop -/

/-- An error classified as transient never matches ErrNotFound: the
wrap chain is linear and ends in a single sentinel. -/
theorem isTransient_not_notFound :
    ∀ e : GoError, isTransient e = true → errorsIs e GoError.notFound = false := by
  intro e
  induction e with
  | wrapped m inner ih =>
    simp only [isTransient, errorsIs] at *
    intro h
    rcases Bool.or_eq_true_iff.mp h with h' | h' <;>
      rcases Bool.or_eq_true_iff.mp h' with h'' | h'' <;>
      simp_all [isTransient]
  | _ => simp [isTransient, errorsIs]

/-- Classification of a transient (429 or 5xx) response by doFetch. -/
theorem doFetch_transient (resp : HttpAttempt) (h : transientResponse resp = true) :
    doFetch resp = Except.error GoError.rateLimited ∨
    doFetch resp = Except.error GoError.upstreamDown := by
  cases resp with
  | netError b => simp [transientResponse] at h
  | response s cl ct et =>
    simp only [transientResponse, Bool.or_eq_true, beq_iff_eq, decide_eq_true_eq] at h
    rcases h with h | h
    · subst h; simp [doFetch]
    · right
      have h200 : s ≠ 200 := by omega
      have h404 : s ≠ 404 := by omega
      have h429 : s ≠ 429 := by omega
      simp [doFetch, h200, h404, h429, h]

/-- Unfolding of one loop iteration that is interrupted by cancellation
during its backoff wait. -/
theorem fetchAux_cancel (o : Nat → Except GoError Artifact) (c : Nat → Bool)
    (attempt r : Nat) (ha : 0 < attempt) (hc : c attempt = true) :
    fetchAux o c attempt r =
      { result := Except.error GoError.ctxCancelled, requests := 0, waits := [] } := by
  have hg : (decide (0 < attempt) && c attempt) = true := by simp [ha, hc]
  cases r <;> simp [fetchAux, hg]

/-- Unfolding of one loop iteration whose attempt succeeds. -/
theorem fetchAux_ok (o : Nat → Except GoError Artifact) (c : Nat → Bool)
    (attempt r : Nat) (a : Artifact)
    (hg : (decide (0 < attempt) && c attempt) = false) (ho : o attempt = Except.ok a) :
    fetchAux o c attempt r =
      { result := Except.ok a, requests := 1,
        waits := if 0 < attempt then [attempt] else [] } := by
  cases r <;> simp [fetchAux, hg, ho]

/-- Unfolding of one loop iteration whose attempt fails with a
transient error while retry budget remains. -/
theorem fetchAux_transient (o : Nat → Except GoError Artifact) (c : Nat → Bool)
    (attempt r : Nat) (e : GoError)
    (hg : (decide (0 < attempt) && c attempt) = false) (ho : o attempt = Except.error e)
    (ht : isTransient e = true) :
    fetchAux o c attempt (r + 1) =
      { result := (fetchAux o c (attempt + 1) r).result
        requests := (fetchAux o c (attempt + 1) r).requests + 1
        waits := (if 0 < attempt then [attempt] else []) ++ (fetchAux o c (attempt + 1) r).waits } := by
  have hnf : errorsIs e GoError.notFound = false := isTransient_not_notFound e ht
  simp [fetchAux, hg, ho, hnf, ht]

/-- Unfolding of one loop iteration whose attempt fails terminally
(not-found or any non-transient error). -/
theorem fetchAux_terminal (o : Nat → Except GoError Artifact) (c : Nat → Bool)
    (attempt r : Nat) (e : GoError)
    (hg : (decide (0 < attempt) && c attempt) = false) (ho : o attempt = Except.error e)
    (ht : errorsIs e GoError.notFound = true ∨ isTransient e = false) :
    fetchAux o c attempt r =
      { result := Except.error e, requests := 1,
        waits := if 0 < attempt then [attempt] else [] } := by
  cases r with
  | zero => simp [fetchAux, hg, ho]
  | succ r' =>
    rcases ht with ht | ht
    · simp [fetchAux, hg, ho, ht]
    · rcases hnf : errorsIs e GoError.notFound with _ | _ <;> simp [fetchAux, hg, ho, hnf, ht]

/-- Unfolding of the last loop iteration (budget exhausted) failing
with any error: the last error is returned verbatim. -/
theorem fetchAux_exhausted (o : Nat → Except GoError Artifact) (c : Nat → Bool)
    (attempt : Nat) (e : GoError)
    (hg : (decide (0 < attempt) && c attempt) = false) (ho : o attempt = Except.error e) :
    fetchAux o c attempt 0 =
      { result := Except.error e, requests := 1,
        waits := if 0 < attempt then [attempt] else [] } := by
  simp [fetchAux, hg, ho]

/-- Consuming a run of N transient attempts (with no cancellation at
their waits) advances the loop by N attempts and adds N requests. -/
theorem fetchAux_consume (o : Nat → Except GoError Artifact) (c : Nat → Bool) :
    ∀ (N attempt remaining : Nat), N ≤ remaining →
    (∀ i, i < N → ∃ e, o (attempt + i) = Except.error e ∧ isTransient e = true) →
    (∀ i, i < N → c (attempt + i) = false) →
    (fetchAux o c attempt remaining).result =
      (fetchAux o c (attempt + N) (remaining - N)).result ∧
    (fetchAux o c attempt remaining).requests =
      N + (fetchAux o c (attempt + N) (remaining - N)).requests := by
  intro N
  induction N with
  | zero => intro attempt remaining _ _ _; simp
  | succ M ih =>
    intro attempt remaining hle htr hc
    obtain ⟨r, rfl⟩ : ∃ r, remaining = r + 1 := ⟨remaining - 1, by omega⟩
    obtain ⟨e, he, ht⟩ := htr 0 (by omega)
    rw [Nat.add_zero] at he
    have hg : (decide (0 < attempt) && c attempt) = false := by
      have := hc 0 (by omega)
      rw [Nat.add_zero] at this
      simp [this]
    rw [fetchAux_transient o c attempt r e hg he ht]
    have ih' := ih (attempt + 1) r (by omega)
      (fun i hi => by
        have := htr (i + 1) (by omega)
        rwa [show attempt + (i + 1) = attempt + 1 + i by omega] at this)
      (fun i hi => by
        have := hc (i + 1) (by omega)
        rwa [show attempt + (i + 1) = attempt + 1 + i by omega] at this)
    have harith1 : attempt + 1 + M = attempt + (M + 1) := by omega
    have harith2 : r - M = r + 1 - (M + 1) := by omega
    rw [harith1, harith2] at ih'
    refine ⟨ih'.1, ?_⟩
    simp only [ih'.2]
    omega

/-- Every recorded backoff wait happened before a retry (index one or
higher): no wait precedes the first attempt. -/
theorem fetchAux_waits_pos (o : Nat → Except GoError Artifact) (c : Nat → Bool) :
    ∀ (remaining attempt w : Nat), w ∈ (fetchAux o c attempt remaining).waits → 1 ≤ w := by
  intro remaining
  induction remaining with
  | zero =>
    intro attempt w hw
    rcases hg : (decide (0 < attempt) && c attempt) with _ | _ <;>
      simp only [fetchAux, hg] at hw
    · rcases ho : o attempt with e | a <;> simp only [ho] at hw <;>
        { rcases hp : decide (0 < attempt) with _ | _ <;> simp [hp] at hw
          · omega
          · have := of_decide_eq_true hp
            omega }
    · simp at hw
  | succ r ih =>
    intro attempt w hw
    rcases hg : (decide (0 < attempt) && c attempt) with _ | _ <;>
      simp only [fetchAux, hg] at hw
    · rcases ho : o attempt with e | a <;> simp only [ho] at hw
      · by_cases hnf : errorsIs e GoError.notFound = true
        · simp only [hnf, if_true] at hw
          rcases hp : decide (0 < attempt) with _ | _ <;> simp [hp] at hw
          · omega
          · have := of_decide_eq_true hp; omega
        · simp only [Bool.not_eq_true] at hnf
          by_cases htr : isTransient e = true
          · simp only [hnf, htr, Bool.false_eq_true, if_false, if_true, List.mem_append] at hw
            rcases hw with hw | hw
            · rcases hp : decide (0 < attempt) with _ | _ <;> simp [hp] at hw
              · omega
              · have := of_decide_eq_true hp; omega
            · exact ih (attempt + 1) w hw
          · simp only [Bool.not_eq_true] at htr
            simp only [hnf, htr, Bool.false_eq_true, if_false] at hw
            rcases hp : decide (0 < attempt) with _ | _ <;> simp [hp] at hw
            · omega
            · have := of_decide_eq_true hp; omega
      · rcases hp : decide (0 < attempt) with _ | _ <;> simp [hp] at hw
        · omega
        · have := of_decide_eq_true hp; omega
    · simp at hw

/-! ## Claims about the Fetcher -/

/-- C3: for every response sequence of N rate-limit (429) or
server-error (5xx) responses followed by a success, with N at most
maxRetries, Fetch succeeds and issues exactly N+1 network requests;
for every sequence whose transient responses exceed maxRetries, Fetch
issues exactly maxRetries+1 requests and returns the last transient
error (rate-limited or upstream-down) unchanged, not a different or
wrapped error. -/
theorem claim_C3 (responses : Nat → HttpAttempt) (cancel : Nat → Bool)
    (maxRetries N : Nat) (hcancel : ∀ k, cancel k = false) :
    ((N ≤ maxRetries →
      (∀ i, i < N → transientResponse (responses i) = true) →
      ∀ a, doFetch (responses N) = Except.ok a →
      (Fetcher.Fetch responses cancel maxRetries).result = Except.ok a ∧
      (Fetcher.Fetch responses cancel maxRetries).requests = N + 1)
     ∧
     ((∀ i, i ≤ maxRetries → transientResponse (responses i) = true) →
      ∀ e, doFetch (responses maxRetries) = Except.error e →
      (Fetcher.Fetch responses cancel maxRetries).result = Except.error e ∧
      (Fetcher.Fetch responses cancel maxRetries).requests = maxRetries + 1 ∧
      (e = GoError.rateLimited ∨ e = GoError.upstreamDown))) := by
  constructor
  · intro hle htr a ha
    have hcons := fetchAux_consume (fun i => doFetch (responses i)) cancel N 0 maxRetries
      (by omega)
      (fun i hi => by
        rcases doFetch_transient (responses i) (htr i hi) with h | h <;>
          exact ⟨_, by simpa using h, by decide⟩)
      (fun i _ => by rw [Nat.zero_add]; exact hcancel i)
    have hg : (decide (0 < N) && cancel N) = false := by simp [hcancel N]
    have hok := fetchAux_ok (fun i => doFetch (responses i)) cancel N (maxRetries - N) a hg
      (by simpa using ha)
    unfold Fetcher.Fetch
    rw [Nat.zero_add] at hcons
    rw [hcons.1, hcons.2, hok]
    exact ⟨rfl, rfl⟩
  · intro htr e he
    have hcons := fetchAux_consume (fun i => doFetch (responses i)) cancel maxRetries 0 maxRetries
      (by omega)
      (fun i hi => by
        rcases doFetch_transient (responses i) (htr i (by omega)) with h | h <;>
          exact ⟨_, by simpa using h, by decide⟩)
      (fun i _ => by rw [Nat.zero_add]; exact hcancel i)
    have hg : (decide (0 < maxRetries) && cancel maxRetries) = false := by
      simp [hcancel maxRetries]
    have hex := fetchAux_exhausted (fun i => doFetch (responses i)) cancel maxRetries e hg
      (by simpa using he)
    unfold Fetcher.Fetch
    rw [Nat.zero_add, Nat.sub_self] at hcons
    rw [hcons.1, hcons.2, hex]
    refine ⟨rfl, rfl, ?_⟩
    rcases doFetch_transient (responses maxRetries) (htr maxRetries (by omega)) with h | h <;>
      rw [he] at h
    · injection h with h'
      exact Or.inl h'
    · injection h with h'
      exact Or.inr h'

/-- Witness for C3 at a concrete run: two 503 responses, then a 200;
maxRetries 3.  Fetch succeeds after exactly 3 requests. -/
theorem claim_C3_witness :
    ((∀ k, cancelNever k = false) ∧ 2 ≤ 3 ∧
      (∀ i, i < 2 → transientResponse (responsesA i) = true) ∧
      doFetch (responsesA 2) = Except.ok artifactA) ∧
    (Fetcher.Fetch responsesA cancelNever 3).result = Except.ok artifactA ∧
    (Fetcher.Fetch responsesA cancelNever 3).requests = 2 + 1 := by
  refine ⟨⟨fun _ => rfl, by norm_num, by decide, by decide⟩, ?_⟩
  exact (claim_C3 responsesA cancelNever 3 2 (fun _ => rfl)).1 (by norm_num) (by decide)
    artifactA (by decide)

/-- C4: a 404-equivalent response makes Fetch return the distinguished
not-found error on the first attempt, with exactly one network request
and no backoff wait. -/
theorem claim_C4 (responses : Nat → HttpAttempt) (cancel : Nat → Bool) (maxRetries : Nat)
    (cl : Option Int) (ct et : String)
    (h404 : responses 0 = HttpAttempt.response 404 cl ct et) :
    Fetcher.Fetch responses cancel maxRetries =
      { result := Except.error GoError.notFound, requests := 1, waits := [] } := by
  have ho : doFetch (responses 0) = Except.error GoError.notFound := by
    rw [h404]; simp [doFetch]
  unfold Fetcher.Fetch
  rw [fetchAux_terminal (fun i => doFetch (responses i)) cancel 0 maxRetries GoError.notFound
    (by simp) (by simpa using ho) (Or.inl (by decide))]
  simp

/-- Witness for C4 at a concrete run: an upstream answering 404, with
maxRetries 3. -/
theorem claim_C4_witness :
    responses404 0 = HttpAttempt.response 404 none "" "" ∧
    Fetcher.Fetch responses404 cancelNever 3 =
      { result := Except.error GoError.notFound, requests := 1, waits := [] } :=
  ⟨rfl, claim_C4 responses404 cancelNever 3 none "" "" rfl⟩

/-- C5: if the caller's cancellation fires during the backoff wait
before retry N, Fetch returns the cancellation error immediately with
no further network attempt (N requests so far, none added); and a
cancellation surfacing from the network call itself (wrapped by
doFetch) is never classified transient and is returned terminally,
without retrying. -/
theorem claim_C5 (responses : Nat → HttpAttempt) (cancel : Nat → Bool)
    (maxRetries N : Nat) :
    ((1 ≤ N → N ≤ maxRetries →
      (∀ i, i < N → transientResponse (responses i) = true) →
      (∀ i, i < N → cancel i = false) →
      cancel N = true →
      (Fetcher.Fetch responses cancel maxRetries).result = Except.error GoError.ctxCancelled ∧
      (Fetcher.Fetch responses cancel maxRetries).requests = N)
     ∧
     (isTransient (GoError.wrapped "fetching artifact" GoError.ctxCancelled) = false ∧
      (N ≤ maxRetries →
       (∀ i, i < N → transientResponse (responses i) = true) →
       (∀ i, i ≤ N → cancel i = false) →
       responses N = HttpAttempt.netError true →
       (Fetcher.Fetch responses cancel maxRetries).result =
         Except.error (GoError.wrapped "fetching artifact" GoError.ctxCancelled) ∧
       (Fetcher.Fetch responses cancel maxRetries).requests = N + 1))) := by
  constructor
  · intro hN hle htr hc hcanc
    have hcons := fetchAux_consume (fun i => doFetch (responses i)) cancel N 0 maxRetries
      (by omega)
      (fun i hi => by
        rcases doFetch_transient (responses i) (htr i hi) with h | h <;>
          exact ⟨_, by simpa using h, by decide⟩)
      (fun i hi => by rw [Nat.zero_add]; exact hc i hi)
    have hcan := fetchAux_cancel (fun i => doFetch (responses i)) cancel N (maxRetries - N)
      (by omega) hcanc
    unfold Fetcher.Fetch
    rw [Nat.zero_add] at hcons
    rw [hcons.1, hcons.2, hcan]
    exact ⟨rfl, rfl⟩
  · refine ⟨by decide, ?_⟩
    intro hle htr hc hnet
    have hcons := fetchAux_consume (fun i => doFetch (responses i)) cancel N 0 maxRetries
      (by omega)
      (fun i hi => by
        rcases doFetch_transient (responses i) (htr i hi) with h | h <;>
          exact ⟨_, by simpa using h, by decide⟩)
      (fun i hi => by rw [Nat.zero_add]; exact hc i (by omega))
    have hg : (decide (0 < N) && cancel N) = false := by simp [hc N (by omega)]
    have ho : doFetch (responses N) =
        Except.error (GoError.wrapped "fetching artifact" GoError.ctxCancelled) := by
      rw [hnet]; rfl
    have hterm := fetchAux_terminal (fun i => doFetch (responses i)) cancel N (maxRetries - N)
      (GoError.wrapped "fetching artifact" GoError.ctxCancelled) hg (by simpa using ho)
      (Or.inr (by decide))
    unfold Fetcher.Fetch
    rw [Nat.zero_add] at hcons
    rw [hcons.1, hcons.2, hterm]
    exact ⟨rfl, rfl⟩

/-- Witness for C5 at concrete runs: cancellation during the wait
before retry 1 aborts after exactly the one request already made, and
a wrapped network cancellation at attempt 1 is returned unretried
after 2 requests. -/
theorem claim_C5_witness :
    ((1 ≤ 1 ∧ 1 ≤ 3 ∧ (∀ i, i < 1 → transientResponse (responsesAllDown i) = true) ∧
       (∀ i, i < 1 → cancelAt1 i = false) ∧ cancelAt1 1 = true) ∧
     (Fetcher.Fetch responsesAllDown cancelAt1 3).result = Except.error GoError.ctxCancelled ∧
     (Fetcher.Fetch responsesAllDown cancelAt1 3).requests = 1) ∧
    ((1 ≤ 3 ∧ (∀ i, i < 1 → transientResponse (responsesNetCancel i) = true) ∧
       (∀ i, i ≤ 1 → cancelNever i = false) ∧
       responsesNetCancel 1 = HttpAttempt.netError true) ∧
     (Fetcher.Fetch responsesNetCancel cancelNever 3).result =
       Except.error (GoError.wrapped "fetching artifact" GoError.ctxCancelled) ∧
     (Fetcher.Fetch responsesNetCancel cancelNever 3).requests = 1 + 1) := by
  refine ⟨⟨⟨by norm_num, by norm_num, by decide, by decide, by decide⟩, ?_⟩,
          ⟨⟨by norm_num, by decide, by decide, by decide⟩, ?_⟩⟩
  · exact (claim_C5 responsesAllDown cancelAt1 3 1).1 (by norm_num) (by norm_num)
      (by decide) (by decide) (by decide)
  · exact (claim_C5 responsesNetCancel cancelNever 3 1).2.2 (by norm_num) (by decide)
      (by decide) (by decide)

/-- C6: for every retry k (k at least 1) the backoff delay lies within
base * 2^(k-1) and base * 2^(k-1) * 1.10 for every jitter draw in
[0,1); the expected delays are monotonically non-decreasing in k; and
no backoff wait precedes the first attempt of a Fetch run. -/
theorem claim_C6 :
    (∀ (baseDelay u : ℚ) (k : Nat), 1 ≤ k → 0 ≤ baseDelay → 0 ≤ u → u < 1 →
      baseDelay * 2 ^ (k - 1) ≤ retryDelay baseDelay k u ∧
      retryDelay baseDelay k u ≤ baseDelay * 2 ^ (k - 1) * (11 / 10)) ∧
    (∀ (baseDelay : ℚ) (k k' : Nat), 1 ≤ k → k ≤ k' → 0 ≤ baseDelay →
      expectedRetryDelay baseDelay k ≤ expectedRetryDelay baseDelay k') ∧
    (∀ (responses : Nat → HttpAttempt) (cancel : Nat → Bool) (maxRetries : Nat),
      0 ∉ (Fetcher.Fetch responses cancel maxRetries).waits) := by
  refine ⟨?_, ?_, ?_⟩
  · intro baseDelay u k _ hb hu0 hu1
    have hd : (0 : ℚ) ≤ baseDelay * 2 ^ (k - 1) := by positivity
    unfold retryDelay
    constructor
    · nlinarith
    · nlinarith
  · intro baseDelay k k' _ hkk hb
    unfold expectedRetryDelay retryDelay
    have hpow : (2 : ℚ) ^ (k - 1) ≤ 2 ^ (k' - 1) := by
      apply pow_le_pow_right₀ (by norm_num)
      omega
    nlinarith [mul_le_mul_of_nonneg_left hpow hb]
  · intro responses cancel maxRetries h
    have := fetchAux_waits_pos (fun i => doFetch (responses i)) cancel maxRetries 0 0 h
    omega

/-- Witness for C6 at concrete values: base 1/2 (500ms in seconds),
retry 2 with jitter draw 1/10, and the monotonicity step from retry 1
to retry 3. -/
theorem claim_C6_witness :
    (1 ≤ 2 ∧ (0 : ℚ) ≤ 1 / 2 ∧ (0 : ℚ) ≤ 1 / 10 ∧ (1 / 10 : ℚ) < 1 ∧
      (1 / 2 : ℚ) * 2 ^ (2 - 1) ≤ retryDelay (1 / 2) 2 (1 / 10) ∧
      retryDelay (1 / 2) 2 (1 / 10) ≤ (1 / 2 : ℚ) * 2 ^ (2 - 1) * (11 / 10)) ∧
    (1 ≤ 1 ∧ 1 ≤ 3 ∧ expectedRetryDelay (1 / 2) 1 ≤ expectedRetryDelay (1 / 2) 3) ∧
    0 ∉ (Fetcher.Fetch responsesA cancelNever 3).waits := by
  refine ⟨⟨by norm_num, by norm_num, by norm_num, by norm_num, ?_⟩,
          ⟨by norm_num, by norm_num, ?_⟩, ?_⟩
  · exact claim_C6.1 (1 / 2) (1 / 10) 2 (by norm_num) (by norm_num) (by norm_num) (by norm_num)
  · exact claim_C6.2.1 (1 / 2) 1 3 (by norm_num) (by norm_num) (by norm_num)
  · exact claim_C6.2.2 responsesA cancelNever 3

/-! ## Claims about the Resolver's module-path encoding -/

/-- Pushing a character appends it to the string's character list. -/
theorem data_push (s : String) (c : Char) : (s.push c).data = s.data ++ [c] := rfl

/-- The string-builder fold of encodeGoModule appends the concatenated
per-character encodings. -/
theorem encodeGoModule_data_aux :
    ∀ (l : List Char) (b : String),
    (l.foldl
      (fun b r =>
        if 'A' ≤ r ∧ r ≤ 'Z' then (b.push '!').push (Char.ofNat (r.toNat + 32))
        else b.push r)
      b).data = b.data ++ encodeChars l := by
  intro l
  induction l with
  | nil => intro b; simp [encodeChars]
  | cons c rest ih =>
    intro b
    simp only [List.foldl_cons]
    rw [ih]
    by_cases h : 'A' ≤ c ∧ c ≤ 'Z'
    · simp [h, encodeChars, goEncodeChar, data_push]
    · simp [h, encodeChars, goEncodeChar, data_push]

/-- Strings with equal character lists are equal. -/
theorem string_eq_of_data (s t : String) (h : s.data = t.data) : s = t := by
  cases s; cases t; exact congrArg String.mk h

/-- Characters that are not uppercase ASCII are kept unchanged by the
per-character encoding. -/
theorem encodeChars_id :
    ∀ l : List Char, (∀ c, c ∈ l → ¬('A' ≤ c ∧ c ≤ 'Z')) → encodeChars l = l := by
  intro l
  induction l with
  | nil => intro _; rfl
  | cons c rest ih =>
    intro h
    have hc : ¬('A' ≤ c ∧ c ≤ 'Z') := h c (by simp)
    simp only [encodeChars, goEncodeChar, hc, if_false]
    rw [ih (fun d hd => h d (by simp [hd]))]
    rfl

/-- C7: the Go module-path encoding rewrites each character through
goEncodeChar, which sends each uppercase ASCII letter to the escape
marker followed by its lowercase form and keeps every other character;
consequently the encoding is the identity on paths without uppercase
ASCII letters, and applying it twice equals applying it once there. -/
theorem claim_C7 :
    (∀ path : String, (encodeGoModule path).data = encodeChars path.data) ∧
    (∀ c, c ∈ asciiUppercase → goEncodeChar c = ['!', c.toLower]) ∧
    (∀ c, ¬('A' ≤ c ∧ c ≤ 'Z') → goEncodeChar c = [c]) ∧
    (∀ path : String, (∀ c, c ∈ path.data → ¬('A' ≤ c ∧ c ≤ 'Z')) →
      encodeGoModule path = path ∧
      encodeGoModule (encodeGoModule path) = encodeGoModule path) := by
  have hdata : ∀ path : String, (encodeGoModule path).data = encodeChars path.data := by
    intro path
    have := encodeGoModule_data_aux path.data ""
    simpa [encodeGoModule] using this
  refine ⟨hdata, ?_, ?_, ?_⟩
  · decide
  · intro c hc
    simp [goEncodeChar, hc]
  · intro path h
    have hid : encodeGoModule path = path := by
      apply string_eq_of_data
      rw [hdata path, encodeChars_id path.data h]
    exact ⟨hid, by rw [hid, hid]⟩

/-- Witness for C7 at concrete inputs: the lowercase path
github.com/user/repo is fixed by the encoding (and a second
application changes nothing), and the letter A encodes to the marker
plus its lowercase form. -/
theorem claim_C7_witness :
    (encodeGoModule "github.com/user/repo").data = encodeChars "github.com/user/repo".data ∧
    'A' ∈ asciiUppercase ∧ goEncodeChar 'A' = ['!', 'A'.toLower] ∧
    (∀ c, c ∈ "github.com/user/repo".data → ¬('A' ≤ c ∧ c ≤ 'Z')) ∧
    encodeGoModule "github.com/user/repo" = "github.com/user/repo" ∧
    encodeGoModule (encodeGoModule "github.com/user/repo") =
      encodeGoModule "github.com/user/repo" :=
  ⟨claim_C7.1 "github.com/user/repo", by decide, claim_C7.2.1 'A' (by decide), by decide,
   (claim_C7.2.2.2 "github.com/user/repo" (by decide)).1,
   (claim_C7.2.2.2 "github.com/user/repo" (by decide)).2⟩

/-! ## Claims about the circuit-breaker wrapper -/

/-- Updating an absent key by the breaker-map update is a no-op. -/
theorem map_set_of_absent (l : List (String × Breaker)) (k : String) (b : Breaker)
    (h : lookupStr l k = none) :
    l.map (fun p => if p.fst = k then (k, b) else p) = l := by
  induction l with
  | nil => rfl
  | cons p rest ih =>
    by_cases hp : p.fst = k
    · rw [lookupStr, if_pos hp] at h
      exact absurd h (by simp)
    · rw [lookupStr, if_neg hp] at h
      simp only [List.map_cons, if_neg hp]
      rw [ih h]

/-- Updating a present key makes its lookup yield the new breaker. -/
theorem lookupStr_map_set (l : List (String × Breaker)) (k : String) (b : Breaker)
    (h : ∃ b0, lookupStr l k = some b0) :
    lookupStr (l.map (fun p => if p.fst = k then (k, b) else p)) k = some b := by
  induction l with
  | nil => obtain ⟨b0, h⟩ := h; simp [lookupStr] at h
  | cons p rest ih =>
    by_cases hp : p.fst = k
    · simp [lookupStr, hp]
    · obtain ⟨b0, h⟩ := h
      rw [lookupStr, if_neg hp] at h
      simp only [List.map_cons, if_neg hp]
      rw [lookupStr, if_neg hp]
      exact ih ⟨b0, h⟩

/-- The breaker-map update leaves every other key's lookup unchanged. -/
theorem lookupStr_map_set_ne (l : List (String × Breaker)) (k h' : String) (b : Breaker)
    (hne : h' ≠ k) :
    lookupStr (l.map (fun p => if p.fst = k then (k, b) else p)) h' = lookupStr l h' := by
  induction l with
  | nil => rfl
  | cons p rest ih =>
    by_cases hp : p.fst = k
    · have hbk : ¬((k, b).fst = h') := fun hk => hne hk.symm
      have hpk : ¬(p.fst = h') := by rw [hp]; exact fun hk => hne hk.symm
      simp only [List.map_cons, if_pos hp]
      rw [lookupStr, if_neg hbk, lookupStr, if_neg hpk]
      exact ih
    · simp only [List.map_cons, if_neg hp]
      by_cases hh : p.fst = h'
      · rw [lookupStr, if_pos hh, lookupStr, if_pos hh]
      · rw [lookupStr, if_neg hh, lookupStr, if_neg hh]
        exact ih

/-- The open/closed snapshot reports the stored breaker's trip label. -/
theorem lookupStr_stateMap (l : List (String × Breaker)) (k : String) (b : Breaker)
    (h : lookupStr l k = some b) :
    lookupStr (l.map (fun p => (p.fst, if p.snd.tripped then "open" else "closed"))) k
      = some (if b.tripped then "open" else "closed") := by
  induction l with
  | nil => simp [lookupStr] at h
  | cons p rest ih =>
    by_cases hp : p.fst = k
    · rw [lookupStr, if_pos hp] at h
      injection h with h
      simp only [List.map_cons]
      rw [lookupStr, if_pos hp, h]
    · rw [lookupStr, if_neg hp] at h
      simp only [List.map_cons]
      rw [lookupStr, if_neg hp]
      exact ih h

/-- A failing call against a key with no breaker yet creates one and
records the failure on it. -/
theorem failStep_absent (p : String → Option String) (url : String)
    (cbf : CircuitBreakerFetcher)
    (h : lookupStr cbf.breakers (extractRegistry p url) = none) :
    failStep p url cbf =
      ⟨(extractRegistry p url, { consecutiveFailures := 1, tripped := false })
        :: cbf.breakers⟩ := by
  unfold failStep CircuitBreakerFetcher.Fetch CircuitBreakerFetcher.getBreaker
  simp only [h, Breaker.new, CircuitBreakerFetcher.setBreaker, Breaker.recordFailure,
    List.map_cons, if_pos rfl]
  norm_num [breakerThreshold]
  rw [map_set_of_absent _ _ _ h]

/-- A failing call against a closed breaker records the failure. -/
theorem failStep_closed (p : String → Option String) (url : String)
    (cbf : CircuitBreakerFetcher) (b : Breaker)
    (h : lookupStr cbf.breakers (extractRegistry p url) = some b)
    (ht : b.tripped = false) :
    failStep p url cbf =
      cbf.setBreaker (extractRegistry p url) b.recordFailure := by
  unfold failStep CircuitBreakerFetcher.Fetch CircuitBreakerFetcher.getBreaker
  simp only [h, ht]
  simp

/-- A call against a tripped breaker is rejected without touching any
breaker state. -/
theorem failStep_tripped (p : String → Option String) (url : String)
    (cbf : CircuitBreakerFetcher) (b : Breaker)
    (h : lookupStr cbf.breakers (extractRegistry p url) = some b)
    (ht : b.tripped = true) :
    failStep p url cbf = cbf := by
  unfold failStep CircuitBreakerFetcher.Fetch CircuitBreakerFetcher.getBreaker
  simp only [h, ht]
  simp

/-- One failing call never changes the breaker stored for a different
key. -/
theorem failStep_other (p : String → Option String) (url : String)
    (cbf : CircuitBreakerFetcher) (h' : String)
    (hne : h' ≠ extractRegistry p url) :
    lookupStr (failStep p url cbf).breakers h' = lookupStr cbf.breakers h' := by
  rcases hcase : lookupStr cbf.breakers (extractRegistry p url) with _ | b
  · rw [failStep_absent p url cbf hcase]
    rw [lookupStr, if_neg (fun hk => hne hk.symm)]
  · rcases htr : b.tripped with _ | _
    · rw [failStep_closed p url cbf b hcase htr]
      exact lookupStr_map_set_ne _ _ _ _ hne
    · rw [failStep_tripped p url cbf b hcase htr]

/-- After n consecutive failures (n between 1 and the threshold 5) the
breaker for the key holds failure count n and is tripped exactly when
n reaches 5. -/
theorem iterFail_lookup (p : String → Option String) (url : String)
    (cbf : CircuitBreakerFetcher)
    (h0 : lookupStr cbf.breakers (extractRegistry p url) = none) :
    ∀ n, 1 ≤ n → n ≤ 5 →
    lookupStr (iterFail p url cbf n).breakers (extractRegistry p url)
      = some { consecutiveFailures := n, tripped := decide (5 ≤ n) } := by
  intro n
  induction n with
  | zero => omega
  | succ m ih =>
    intro _ h5
    by_cases hm : m = 0
    · subst hm
      show lookupStr (failStep p url (iterFail p url cbf 0)).breakers _ = _
      rw [show iterFail p url cbf 0 = cbf from rfl, failStep_absent p url cbf h0]
      rw [lookupStr, if_pos rfl]
      norm_num
    · have hlk := ih (by omega) (by omega)
      have hdec : decide (5 ≤ m) = false := by simp; omega
      rw [hdec] at hlk
      show lookupStr (failStep p url (iterFail p url cbf m)).breakers _ = _
      rw [failStep_closed p url (iterFail p url cbf m)
        { consecutiveFailures := m, tripped := false } hlk rfl]
      unfold CircuitBreakerFetcher.setBreaker
      rw [lookupStr_map_set _ _ _ ⟨_, hlk⟩]
      simp [Breaker.recordFailure, breakerThreshold]

/-- Failures against one URL never change another key's breaker. -/
theorem iterFail_other (p : String → Option String) (url : String)
    (cbf : CircuitBreakerFetcher) :
    ∀ (n : Nat) (h' : String), h' ≠ extractRegistry p url →
    lookupStr (iterFail p url cbf n).breakers h' = lookupStr cbf.breakers h' := by
  intro n
  induction n with
  | zero => intro h' _; rfl
  | succ m ih =>
    intro h' hne
    show lookupStr (failStep p url (iterFail p url cbf m)).breakers h' = _
    rw [failStep_other p url _ h' hne]
    exact ih h' hne

/-- C2: starting with no breaker for a host, after n consecutive
failures with 1 <= n < 5 the snapshot reports the host closed and a
further call still passes straight through to the underlying fetcher;
after exactly 5 consecutive failures the snapshot reports it open; and
the failures never change the breaker of any other host. -/
theorem claim_C2 (p : String → Option String) (url : String)
    (cbf : CircuitBreakerFetcher)
    (h0 : lookupStr cbf.breakers (extractRegistry p url) = none) :
    ((∀ n, 1 ≤ n → n < 5 →
       lookupStr (CircuitBreakerFetcher.GetBreakerState (iterFail p url cbf n))
         (extractRegistry p url) = some "closed") ∧
     (∀ (n : Nat) (inner : Except GoError Artifact), n < 5 →
       (CircuitBreakerFetcher.Fetch p (iterFail p url cbf n) url inner).fst = inner) ∧
     lookupStr (CircuitBreakerFetcher.GetBreakerState (iterFail p url cbf 5))
       (extractRegistry p url) = some "open" ∧
     (∀ (n : Nat) (h' : String), h' ≠ extractRegistry p url →
       lookupStr (iterFail p url cbf n).breakers h' = lookupStr cbf.breakers h')) := by
  refine ⟨?_, ?_, ?_, iterFail_other p url cbf⟩
  · intro n h1 h5
    have hlk := iterFail_lookup p url cbf h0 n h1 (by omega)
    have hdec : decide (5 ≤ n) = false := by simp; omega
    rw [hdec] at hlk
    unfold CircuitBreakerFetcher.GetBreakerState
    rw [lookupStr_stateMap _ _ _ hlk]
    rfl
  · intro n inner h5
    by_cases hn : n = 0
    · subst hn
      show (CircuitBreakerFetcher.Fetch p cbf url inner).fst = inner
      unfold CircuitBreakerFetcher.Fetch CircuitBreakerFetcher.getBreaker
      simp only [h0, Breaker.new]
      cases inner <;> simp
    · have hlk := iterFail_lookup p url cbf h0 n (by omega) (by omega)
      have hdec : decide (5 ≤ n) = false := by simp; omega
      rw [hdec] at hlk
      unfold CircuitBreakerFetcher.Fetch CircuitBreakerFetcher.getBreaker
      simp only [hlk]
      cases inner <;> simp
  · have hlk := iterFail_lookup p url cbf h0 5 (by omega) (by omega)
    have hdec : decide (5 ≤ 5) = true := by simp
    rw [hdec] at hlk
    unfold CircuitBreakerFetcher.GetBreakerState
    rw [lookupStr_stateMap _ _ _ hlk]
    rfl

/-- Witness for C2 at a concrete run: the npm registry host starting
from an empty breaker map, with a second host h2.example untouched. -/
theorem claim_C2_witness :
    lookupStr cbfEmpty.breakers (extractRegistry parseHostNpm "https://registry.npmjs.org/a.tgz")
      = none ∧
    1 ≤ 4 ∧ 4 < 5 ∧
    lookupStr
      (CircuitBreakerFetcher.GetBreakerState
        (iterFail parseHostNpm "https://registry.npmjs.org/a.tgz" cbfEmpty 4))
      (extractRegistry parseHostNpm "https://registry.npmjs.org/a.tgz") = some "closed" ∧
    (CircuitBreakerFetcher.Fetch parseHostNpm
      (iterFail parseHostNpm "https://registry.npmjs.org/a.tgz" cbfEmpty 4)
      "https://registry.npmjs.org/a.tgz" (Except.ok artifactA)).fst = Except.ok artifactA ∧
    lookupStr
      (CircuitBreakerFetcher.GetBreakerState
        (iterFail parseHostNpm "https://registry.npmjs.org/a.tgz" cbfEmpty 5))
      (extractRegistry parseHostNpm "https://registry.npmjs.org/a.tgz") = some "open" ∧
    ("h2.example" ≠ extractRegistry parseHostNpm "https://registry.npmjs.org/a.tgz" ∧
     lookupStr (iterFail parseHostNpm "https://registry.npmjs.org/a.tgz" cbfEmpty 5).breakers
       "h2.example" = lookupStr cbfEmpty.breakers "h2.example") := by
  have h0 : lookupStr cbfEmpty.breakers
      (extractRegistry parseHostNpm "https://registry.npmjs.org/a.tgz") = none := rfl
  have hmain := claim_C2 parseHostNpm "https://registry.npmjs.org/a.tgz" cbfEmpty h0
  refine ⟨h0, by norm_num, by norm_num, hmain.1 4 (by norm_num) (by norm_num),
    hmain.2.1 4 (Except.ok artifactA) (by norm_num), hmain.2.2.1, by decide,
    hmain.2.2.2 5 "h2.example" (by decide)⟩

/-- C1 counterexample: with the npm-registry breaker open, the rejection
error returned by CircuitBreakerFetcher.Fetch and Head wraps
ErrUpstreamDown, so errors.Is matches it against the upstream-down
class: the circuit-open rejection is not distinct from the
actual-network-failure error classes as the claim requires. -/
theorem claim_C1_counterexample :
    (CircuitBreakerFetcher.Fetch parseHostNpm cbfOpen "https://registry.npmjs.org/a.tgz"
      (Except.ok artifactA)).fst = Except.error circuitOpenErrNpm ∧
    (CircuitBreakerFetcher.Head parseHostNpm cbfOpen "https://registry.npmjs.org/a.tgz"
      (Except.ok (21, "application/gzip"))).fst = Except.error circuitOpenErrNpm ∧
    errorsIs circuitOpenErrNpm GoError.upstreamDown = true := by
  refine ⟨by decide, by decide, by decide⟩

/-- C1 as amended: while a host's breaker is open, Fetch and Head reject
without invoking the underlying fetcher (the outcome and state are the
same for every underlying result), with an error naming the host that
wraps ErrUpstreamDown: it is distinguishable from ErrNotFound and
ErrRateLimited, but errors.Is matches it against ErrUpstreamDown, so it
is not distinct from the upstream-down class. -/
theorem claim_C1_amended (p : String → Option String) (url : String)
    (cbf : CircuitBreakerFetcher) (b : Breaker)
    (hb : lookupStr cbf.breakers (extractRegistry p url) = some b)
    (ht : b.tripped = true) :
    ((∀ inner, CircuitBreakerFetcher.Fetch p cbf url inner =
       (Except.error (GoError.wrapped
          ("circuit breaker open for registry " ++ extractRegistry p url)
          GoError.upstreamDown), cbf)) ∧
     (∀ innerH, CircuitBreakerFetcher.Head p cbf url innerH =
       (Except.error (GoError.wrapped
          ("circuit breaker open for registry " ++ extractRegistry p url)
          GoError.upstreamDown), cbf)) ∧
     (∀ m : String,
       errorsIs (GoError.wrapped m GoError.upstreamDown) GoError.notFound = false ∧
       errorsIs (GoError.wrapped m GoError.upstreamDown) GoError.rateLimited = false ∧
       errorsIs (GoError.wrapped m GoError.upstreamDown) GoError.upstreamDown = true)) := by
  refine ⟨?_, ?_, ?_⟩
  · intro inner
    unfold CircuitBreakerFetcher.Fetch CircuitBreakerFetcher.getBreaker
    simp only [hb, ht]
    simp
  · intro innerH
    unfold CircuitBreakerFetcher.Head CircuitBreakerFetcher.getBreaker
    simp only [hb, ht]
    simp
  · intro m
    refine ⟨by simp [errorsIs], by simp [errorsIs], by simp [errorsIs]⟩

/-- Witness for the amended C1 at the concrete open breaker. -/
theorem claim_C1_witness :
    (lookupStr cbfOpen.breakers
       (extractRegistry parseHostNpm "https://registry.npmjs.org/a.tgz")
       = some { consecutiveFailures := 5, tripped := true } ∧
     Breaker.tripped { consecutiveFailures := 5, tripped := true } = true) ∧
    CircuitBreakerFetcher.Fetch parseHostNpm cbfOpen "https://registry.npmjs.org/a.tgz"
      (Except.ok artifactA) =
      (Except.error (GoError.wrapped
        ("circuit breaker open for registry "
          ++ extractRegistry parseHostNpm "https://registry.npmjs.org/a.tgz")
        GoError.upstreamDown), cbfOpen) ∧
    errorsIs (GoError.wrapped "circuit breaker open for registry registry.npmjs.org"
      GoError.upstreamDown) GoError.notFound = false := by
  have h := claim_C1_amended parseHostNpm "https://registry.npmjs.org/a.tgz" cbfOpen
    { consecutiveFailures := 5, tripped := true } rfl rfl
  exact ⟨⟨rfl, rfl⟩, h.1 (Except.ok artifactA),
    (h.2.2 "circuit breaker open for registry registry.npmjs.org").1⟩

/-- C10: the breaker key for a URL is the parsed host when parsing
succeeds with a non-empty host; when parsing fails or the host is
empty, it is the raw URL truncated to its first 50 characters when
longer; hence two unparseable URLs longer than 50 characters sharing
their first 50 characters share one breaker key. -/
theorem claim_C10 :
    ((∀ (parseHost : String → Option String) (url host : String),
       parseHost url = some host → host ≠ "" →
       extractRegistry parseHost url = host) ∧
     (∀ (parseHost : String → Option String) (url : String),
       (parseHost url = none ∨ parseHost url = some "") →
       extractRegistry parseHost url = truncate50 url ∧
       (50 < url.data.length → extractRegistry parseHost url = String.mk (url.data.take 50)) ∧
       (¬ 50 < url.data.length → extractRegistry parseHost url = url)) ∧
     (∀ (parseHost : String → Option String) (u1 u2 : String),
       parseHost u1 = none → parseHost u2 = none →
       50 < u1.data.length → 50 < u2.data.length →
       u1.data.take 50 = u2.data.take 50 →
       extractRegistry parseHost u1 = extractRegistry parseHost u2)) := by
  refine ⟨?_, ?_, ?_⟩
  · intro parseHost url host hp hne
    simp [extractRegistry, hp, hne]
  · intro parseHost url hp
    have hext : extractRegistry parseHost url = truncate50 url := by
      rcases hp with hp | hp
      · simp [extractRegistry, hp]
      · simp [extractRegistry, hp]
    refine ⟨hext, ?_, ?_⟩
    · intro hlen
      rw [hext]
      simp only [truncate50, if_pos hlen]
    · intro hlen
      rw [hext]
      simp only [truncate50, if_neg hlen]
  · intro parseHost u1 u2 h1 h2 hl1 hl2 htake
    have e1 : extractRegistry parseHost u1 = String.mk (u1.data.take 50) := by
      simp only [extractRegistry, h1, truncate50, if_pos hl1]
    have e2 : extractRegistry parseHost u2 = String.mk (u2.data.take 50) := by
      simp only [extractRegistry, h2, truncate50, if_pos hl2]
    rw [e1, e2, htake]

/-- Witness for C10 at concrete inputs: a URL whose host parses, and
two unparseable long URLs sharing their first 50 characters. -/
theorem claim_C10_witness :
    (parseHostNpm "https://registry.npmjs.org/a.tgz" = some "registry.npmjs.org" ∧
     "registry.npmjs.org" ≠ "" ∧
     extractRegistry parseHostNpm "https://registry.npmjs.org/a.tgz" = "registry.npmjs.org") ∧
    (parseHostNone uLong1 = none ∧ parseHostNone uLong2 = none ∧
     50 < uLong1.data.length ∧ 50 < uLong2.data.length ∧
     uLong1.data.take 50 = uLong2.data.take 50 ∧
     extractRegistry parseHostNone uLong1 = extractRegistry parseHostNone uLong2) := by
  refine ⟨⟨rfl, by decide, ?_⟩, ⟨rfl, rfl, by decide, by decide, by decide, ?_⟩⟩
  · exact claim_C10.1 parseHostNpm "https://registry.npmjs.org/a.tgz" "registry.npmjs.org"
      rfl (by decide)
  · exact claim_C10.2.2 parseHostNone uLong1 uLong2 rfl rfl (by decide) (by decide) (by decide)

/-! ## Claims about the Resolver -/

/-- Concatenating the character lists is string concatenation. -/
theorem data_append (a b : String) : (a ++ b).data = a.data ++ b.data := rfl

/-- A concatenation whose right part is non-empty is non-empty. -/
theorem append_ne_right (a b : String) (hb : b ≠ "") : a ++ b ≠ "" := by
  intro h
  apply hb
  have hd := congrArg String.data h
  rw [data_append] at hd
  have hnil : b.data = [] := (List.append_eq_nil.mp hd).2
  exact string_eq_of_data _ _ (by rw [hnil])

/-- A metadata string field is never the empty string. -/
theorem metaStringField_ne_empty (m : List (String × MetaValue)) (key s : String)
    (h : metaStringField m key = some s) : s ≠ "" := by
  unfold metaStringField at h
  rcases hl : lookupStr m key with _ | v
  · simp only [hl] at h
    exact absurd h (by simp)
  · cases v with
    | nonString =>
      simp only [hl] at h
      exact absurd h (by simp)
    | str s' =>
      simp only [hl] at h
      by_cases he : s' = ""
      · rw [if_pos he] at h
        exact absurd h (by simp)
      · rw [if_neg he] at h
        injection h with h
        rw [← h]; exact he

/-- A download URL extracted from version metadata is non-empty. -/
theorem versionDownloadURL_ne_empty (v : Version) (url : String)
    (h : versionDownloadURL v = some url) : url ≠ "" := by
  unfold versionDownloadURL at h
  rcases hm : v.metadata with _ | m
  · simp only [hm] at h
    exact absurd h (by simp)
  · simp only [hm] at h
    rcases hd : metaStringField m "download_url" with _ | u
    · simp only [hd] at h
      exact metaStringField_ne_empty m "tarball" url h
    · simp only [hd] at h
      injection h with h
      exact h ▸ metaStringField_ne_empty m "download_url" u hd

/-- Unfolding equation for one scanned version record. -/
theorem findVersionArtifact_cons (version : String) (w : Version) (ws : List Version) :
    findVersionArtifact version (w :: ws) =
      if w.number ≠ version then findVersionArtifact version ws
      else
        match versionDownloadURL w with
        | some url =>
            Except.ok { url := url, filename := filenameFromURL url, integrity := w.integrity }
        | none => Except.error GoError.noDownloadURL := rfl

/-- Every successful scan result takes its filename from its URL, and
that URL is non-empty. -/
theorem findVersionArtifact_ok (version : String) :
    ∀ (vs : List Version) (info : ArtifactInfo),
    findVersionArtifact version vs = Except.ok info →
    info.filename = filenameFromURL info.url ∧ info.url ≠ "" := by
  intro vs
  induction vs with
  | nil => intro info h; exact absurd h (by simp [findVersionArtifact])
  | cons v rest ih =>
    intro info h
    rw [findVersionArtifact_cons] at h
    by_cases hnum : v.number ≠ version
    · rw [if_pos hnum] at h
      exact ih info h
    · rw [if_neg hnum] at h
      rcases hd : versionDownloadURL v with _ | url
      · simp only [hd] at h
        exact absurd h (by simp)
      · simp only [hd] at h
        injection h with h
        rw [← h]
        exact ⟨rfl, versionDownloadURL_ne_empty v url hd⟩

/-- Scanning skips any run of version records with other numbers. -/
theorem findVersionArtifact_skip (version : String) :
    ∀ (pre rest : List Version),
    (∀ w, w ∈ pre → w.number ≠ version) →
    findVersionArtifact version (pre ++ rest) = findVersionArtifact version rest := by
  intro pre
  induction pre with
  | nil => intro rest _; rfl
  | cons w ws ih =>
    intro rest h
    have hw : w.number ≠ version := h w (by simp)
    show findVersionArtifact version (w :: (ws ++ rest)) = _
    rw [findVersionArtifact_cons, if_pos hw]
    exact ih rest (fun x hx => h x (by simp [hx]))

/-- A scan of a list with no matching version number yields ErrNotFound. -/
theorem findVersionArtifact_absent (version : String) :
    ∀ vs : List Version, (∀ v, v ∈ vs → v.number ≠ version) →
    findVersionArtifact version vs = Except.error GoError.notFound := by
  intro vs
  induction vs with
  | nil => intro _; rfl
  | cons v rest ih =>
    intro h
    rw [findVersionArtifact_cons, if_pos (h v (by simp))]
    exact ih (fun x hx => h x (by simp [hx]))

/-- The last character of a URL that does not end in a slash starts the
final path segment, so the segment is non-empty. -/
theorem filenameFromURL_ne_empty (url : String) (h1 : url ≠ "")
    (h2 : url.data.getLast? ≠ some (Char.ofNat 47)) : filenameFromURL url ≠ "" := by
  have hd : url.data ≠ [] := by
    intro hnil
    exact h1 (string_eq_of_data _ _ (by rw [hnil]))
  cases hrev : url.data.reverse with
  | nil => exact absurd (by rwa [List.reverse_eq_nil_iff] at hrev) hd
  | cons c t =>
    have hlast : url.data.getLast? = some c := by
      have hurl : url.data = (c :: t).reverse := by rw [← hrev, List.reverse_reverse]
      rw [hurl, List.reverse_cons, List.getLast?_concat]
    have hcne : c ≠ Char.ofNat 47 := fun he => h2 (he ▸ hlast)
    intro hempty
    have hdata := congrArg String.data hempty
    unfold filenameFromURL afterLastSlash at hdata
    rw [hrev, List.takeWhile_cons] at hdata
    simp only [hcne, decide_not] at hdata
    simp at hdata

/-- The static-template filenames of resolveWithoutRegistry are never
empty (each ends in a fixed non-empty extension). -/
theorem resolveWithoutRegistry_filename (ecosystem name version : String)
    (info : ArtifactInfo)
    (h : resolveWithoutRegistry ecosystem name version = Except.ok info) :
    info.filename ≠ "" := by
  unfold resolveWithoutRegistry at h
  split_ifs at h <;>
    first
      | (injection h with h
         rw [← h]
         exact append_ne_right _ _ (by decide))
      | (split at h
         · injection h with h
           rw [← h]
           exact append_ne_right _ _ (by decide)
         · exact absurd h (by simp))
      | exact absurd h (by simp)

/-- C9 counterexample: a registered collaborator whose URL builder
returns a URL ending in a slash makes Resolve succeed with a non-empty
url but an empty filename, violating the claimed invariant. -/
theorem claim_C9_counterexample :
    resolverSlash.Resolve "pypi" "pkg" "1.0" =
      Except.ok { url := "https://example.com/", filename := "", integrity := "" } ∧
    ("https://example.com/" : String) ≠ "" := by
  exact ⟨by decide, by decide⟩

/-- C9 as amended: for every successful Resolve, the filename is
non-empty whenever the url is non-empty and does not end in a slash;
the static-template strategy always yields a non-empty filename, but a
collaborator URL ending in a slash yields an empty filename (the
filename is the URL's final path segment). -/
theorem claim_C9_amended (r : Resolver) (ecosystem name version : String)
    (info : ArtifactInfo)
    (hok : r.Resolve ecosystem name version = Except.ok info)
    (hurl : info.url ≠ "")
    (hslash : info.url.data.getLast? ≠ some (Char.ofNat 47)) :
    info.filename ≠ "" := by
  unfold Resolver.Resolve at hok
  rcases hreg : lookupStr r.registries ecosystem with _ | reg
  · simp only [hreg] at hok
    exact resolveWithoutRegistry_filename ecosystem name version info hok
  · simp only [hreg] at hok
    by_cases hu : reg.downloadURL name version ≠ ""
    · rw [if_pos hu] at hok
      injection hok with hok
      rw [← hok]
      rw [← hok] at hurl hslash
      exact filenameFromURL_ne_empty _ hurl hslash
    · rw [if_neg hu] at hok
      unfold resolveFromMetadata at hok
      rcases hfv : reg.fetchVersions name with e | versions
      · simp only [hfv] at hok
        exact absurd hok (by simp)
      · simp only [hfv] at hok
        have hfind := findVersionArtifact_ok version versions info hok
        rw [hfind.1]
        exact filenameFromURL_ne_empty _ hfind.2 hslash

/-- Witness for the amended C9: the static npm template and a
collaborator URL with a proper final segment both yield non-empty
filenames. -/
theorem claim_C9_witness :
    (resolverMeta.Resolve "pypi" "pkg" "1.0" =
       Except.ok { url := "https://files.example/pkg-1.0.tar.gz",
                   filename := "pkg-1.0.tar.gz", integrity := "sha256-abc" } ∧
     ("https://files.example/pkg-1.0.tar.gz" : String) ≠ "" ∧
     ("https://files.example/pkg-1.0.tar.gz" : String).data.getLast? ≠ some (Char.ofNat 47) ∧
     ({ url := "https://files.example/pkg-1.0.tar.gz", filename := "pkg-1.0.tar.gz",
        integrity := "sha256-abc"} : ArtifactInfo).filename ≠ "") := by
  refine ⟨by decide, by decide, by decide, ?_⟩
  exact claim_C9_amended resolverMeta "pypi" "pkg" "1.0" _ (by decide) (by decide) (by decide)

/-- C8 counterexample: when the requested version is absent the code
returns the bare ErrNotFound sentinel; two different (ecosystem, name,
version) coordinates produce the identical error value, so the error
carries no ecosystem, name or version diagnostics. -/
theorem claim_C8_counterexample :
    resolverMeta.Resolve "pypi" "left-package" "2.0" = Except.error GoError.notFound ∧
    resolverMetaB.Resolve "hex" "right-package" "3.0" = Except.error GoError.notFound := by
  exact ⟨by decide, by decide⟩

/-- C8 as amended: on the metadata fallback (registered collaborator
whose URL builder returned empty), an absent version fails with the
bare not-found sentinel (no coordinates attached); a present version
whose metadata holds no usable download_url or tarball string fails
with the distinguished no-download-URL error; and a found download URL
is returned with the version's integrity hash propagated into the
ArtifactInfo. -/
theorem claim_C8_amended (r : Resolver) (ecosystem name version : String)
    (reg : Registry) (versions : List Version)
    (hreg : lookupStr r.registries ecosystem = some reg)
    (hempty : reg.downloadURL name version = "")
    (hfv : reg.fetchVersions name = Except.ok versions) :
    ((∀ v, v ∈ versions → v.number ≠ version) →
      r.Resolve ecosystem name version = Except.error GoError.notFound) ∧
    (∀ pre v post, versions = pre ++ v :: post →
      (∀ w, w ∈ pre → w.number ≠ version) → v.number = version →
      ((versionDownloadURL v = none →
        r.Resolve ecosystem name version = Except.error GoError.noDownloadURL) ∧
       (∀ url, versionDownloadURL v = some url →
        r.Resolve ecosystem name version =
          Except.ok { url := url, filename := filenameFromURL url,
                      integrity := v.integrity }))) := by
  have hred : r.Resolve ecosystem name version = findVersionArtifact version versions := by
    unfold Resolver.Resolve
    simp only [hreg]
    rw [if_neg (by simp [hempty])]
    unfold resolveFromMetadata
    simp only [hfv]
  constructor
  · intro habs
    rw [hred]
    exact findVersionArtifact_absent version versions habs
  · intro pre v post hsplit hpre hv
    have hfirst : findVersionArtifact version versions =
        findVersionArtifact version (v :: post) := by
      rw [hsplit]
      exact findVersionArtifact_skip version pre (v :: post) hpre
    constructor
    · intro hnone
      rw [hred, hfirst, findVersionArtifact_cons, if_neg (by simp [hv]), hnone]
    · intro url hsome
      rw [hred, hfirst, findVersionArtifact_cons, if_neg (by simp [hv]), hsome]

/-- Witness for the amended C8 at the concrete pypi collaborator: an
absent version 2.0 yields the bare not-found sentinel, version 1.1
(empty metadata) yields the no-download-URL error, and version 1.0
yields its download URL with integrity sha256-abc propagated. -/
theorem claim_C8_witness :
    (lookupStr resolverMeta.registries "pypi" = some regMetaA ∧
     regMetaA.downloadURL "pkg" "2.0" = "" ∧
     (∀ v, v ∈ [({ number := "0.9", integrity := "", metadata := none } : Version),
        { number := "1.0", integrity := "sha256-abc",
          metadata := some [("download_url",
            MetaValue.str "https://files.example/pkg-1.0.tar.gz")] },
        { number := "1.1", integrity := "", metadata := some [] }] → v.number ≠ "2.0") ∧
     resolverMeta.Resolve "pypi" "pkg" "2.0" = Except.error GoError.notFound) ∧
    (resolverMeta.Resolve "pypi" "pkg" "1.1" = Except.error GoError.noDownloadURL) ∧
    (resolverMeta.Resolve "pypi" "pkg" "1.0" =
      Except.ok { url := "https://files.example/pkg-1.0.tar.gz",
                  filename := "pkg-1.0.tar.gz", integrity := "sha256-abc" }) := by
  refine ⟨⟨rfl, rfl, by decide, ?_⟩, ?_, ?_⟩
  · exact (claim_C8_amended resolverMeta "pypi" "pkg" "2.0" regMetaA _ rfl rfl rfl).1 (by decide)
  · exact ((claim_C8_amended resolverMeta "pypi" "pkg" "1.1" regMetaA _ rfl rfl rfl).2
      [{ number := "0.9", integrity := "", metadata := none },
       { number := "1.0", integrity := "sha256-abc",
         metadata := some [("download_url",
           MetaValue.str "https://files.example/pkg-1.0.tar.gz")] }]
      { number := "1.1", integrity := "", metadata := some [] } [] rfl (by decide) rfl).1 rfl
  · exact (((claim_C8_amended resolverMeta "pypi" "pkg" "1.0" regMetaA _ rfl rfl rfl).2
      [{ number := "0.9", integrity := "", metadata := none }]
      { number := "1.0", integrity := "sha256-abc",
        metadata := some [("download_url",
          MetaValue.str "https://files.example/pkg-1.0.tar.gz")] }
      [{ number := "1.1", integrity := "", metadata := some [] }] rfl (by decide) rfl).2
      "https://files.example/pkg-1.0.tar.gz" rfl)
